import Mathlib

/-!
Verification of the tool-dispatch and duplicate-suppression layer of the
canvas-scheduler repository (`src/canvas_tools.py`).

The Python module is shallowly embedded below:

* strings are Lean `String`s; Python string operations (`str.replace`,
  lexicographic comparison used by `sorted`/`list.sort`) are re-implemented
  over the underlying `List Char` so that they are executable and
  kernel-reducible;
* the idempotency-store file (`created_blocks_canvas.json`) is a `StoreFile`:
  either absent, unreadable/invalid JSON (`corrupt`), or a JSON array of
  strings (`content`);
* the Canvas backend is an oracle supplied to each function: every network
  call is given its outcome (`none` models a raised
  `requests.HTTPError`/`BackendRequestError`, `some` a parsed JSON success);
* raised Python exceptions are modelled with `Except PyError`;
* the SHA-1 digest is kept abstract: every statement quantifies over the hash
  function `H : String → String` applied to the exact pre-hash encoding
  `f"{title}|{start_iso}|{end_iso}"` built by `_hash_block`;
* `datetime` values are restricted to the second-precision ISO-8601 strings
  exchanged with Canvas (`YYYY-MM-DDTHH:MM:SS` plus an optional `Z`/`±HH:MM`
  offset); `dateutil.parser.parse` is modelled by `parseIsoDatetime` on this
  subset, other inputs counting as unparseable.
-/

/-! ### Python string primitives -/

/-- Python `s.replace("+00:00", "Z")` on `List Char`, the one replacement the
code performs: scan left to right, replacing each non-overlapping occurrence
of the six-character pattern `+00:00` by `Z`. -/
def replaceP00Z : List Char → List Char
  | '+' :: '0' :: '0' :: ':' :: '0' :: '0' :: rest => 'Z' :: replaceP00Z rest
  | c :: rest => c :: replaceP00Z rest
  | [] => []

/-- Whether the pattern `+00:00` occurs anywhere in the character list. -/
def hasP00 : List Char → Bool
  | '+' :: '0' :: '0' :: ':' :: '0' :: '0' :: _ => true
  | _ :: rest => hasP00 rest
  | [] => false

/-- The textual normalization used by `create_canvas_event`
(`_to_iso8601_z` on an actual string): `s.replace("+00:00", "Z")`. -/
def normIso (s : String) : String :=
  ⟨replaceP00Z s.data⟩

/-- Python `_to_iso8601_z(s)`: `s.replace("+00:00", "Z") if isinstance(s, str) else s`.
A Python argument value of `None` is modelled as `Option.none`. -/
def _to_iso8601_z (s : Option String) : Option String :=
  s.map normIso

/-- Python string `<=`: lexicographic comparison by code point. -/
def lexLe : List Char → List Char → Bool
  | [], _ => true
  | _ :: _, [] => false
  | a :: as, b :: bs =>
    if a.toNat < b.toNat then true
    else if b.toNat < a.toNat then false
    else lexLe as bs

/-- Python string `<=` as a decidable relation on `String`. -/
def strLe (a b : String) : Prop :=
  lexLe a.data b.data = true

instance : DecidableRel strLe :=
  fun a b => inferInstanceAs (Decidable (lexLe a.data b.data = true))

/-! ### The idempotency store (`created_blocks_canvas.json`) -/

/-- The state of the idempotency-store file.  `absent` and `corrupt`
(unreadable or invalid JSON) are the states in which `json.load` raises;
`content l` is a JSON array of strings. -/
inductive StoreFile
  | absent
  | corrupt
  | content (entries : List String)
deriving DecidableEq

/-- Python `_load_seen()`: `set(json.load(f))` guarded by `try/except` returning the
empty set on any failure.  The Python `set` is modelled as a duplicate-free
list; membership is the only operation the code performs on it. -/
def _load_seen : StoreFile → List String
  | .content l => l.dedup
  | _ => []

/-- Python `_save_seen(seen)`: rewrite the file with `sorted(list(seen))`.
Python's sort on strings is the stable ascending sort by code-point
lexicographic order, which `List.insertionSort strLe` computes. -/
def _save_seen (seen : List String) : StoreFile :=
  .content (List.insertionSort strLe seen)

/-- Python `seen.add(h)` on the set modelled as a duplicate-free list. -/
def setAdd (h : String) (seen : List String) : List String :=
  if h ∈ seen then seen else h :: seen

/-! ### The event fingerprint (`_hash_block`) -/

/-- The pre-hash encoding `f"{title}|{start_iso}|{end_iso}"` that
`_hash_block` feeds to SHA-1. -/
def hashInput (title start_iso end_iso : String) : String :=
  title ++ "|" ++ start_iso ++ "|" ++ end_iso

/-- Python `_hash_block(title, start_iso, end_iso)`:
`hashlib.sha1(f"{title}|{start_iso}|{end_iso}".encode()).hexdigest()`.
The digest `H` is kept abstract; all theorems quantify over it. -/
def _hash_block (H : String → String) (title start_iso end_iso : String) : String :=
  H (hashInput title start_iso end_iso)

/-! ### Timezone-aware date-times

`dateutil.parser.parse` and `datetime` are modelled on the second-precision
ISO-8601 strings exchanged with Canvas: `YYYY-MM-DDTHH:MM:SS` followed by an
optional offset (`Z` or `±HH:MM`).  Anything else counts as unparseable.
A parsed value keeps its wall-clock fields and its offset (`none` models an
offset-naive `datetime`), exactly the information `datetime.isoformat` and
datetime comparison consume. -/

structure PyDateTime where
  year : Nat
  month : Nat
  day : Nat
  hour : Nat
  minute : Nat
  second : Nat
  offsetMinutes : Option Int
deriving DecidableEq

def digitVal (c : Char) : Option Nat :=
  if '0'.toNat ≤ c.toNat ∧ c.toNat ≤ '9'.toNat then some (c.toNat - '0'.toNat)
  else none

def twoDigits (a b : Char) : Option Nat := do
  let x ← digitVal a
  let y ← digitVal b
  pure (10 * x + y)

/-- Parse the trailing offset of an ISO-8601 string: absent (naive `datetime`),
`Z`, or a signed `±HH:MM`. -/
def parseOffsetChars : List Char → Option (Option Int)
  | [] => some none
  | ['Z'] => some (some 0)
  | [sgn, h1, h2, ':', m1, m2] => do
    let h ← twoDigits h1 h2
    let m ← twoDigits m1 m2
    if h ≤ 23 ∧ m ≤ 59 then
      if sgn = '+' then some (some ((h * 60 + m : Nat) : Int))
      else if sgn = '-' then some (some (-((h * 60 + m : Nat) : Int)))
      else none
    else none
  | _ => none

/-- Python `dateutil.parser.parse` on the ISO-8601 subset described above; `none`
models a raised parse error. -/
def parseIsoDatetime (s : String) : Option PyDateTime :=
  match s.data with
  | y1 :: y2 :: y3 :: y4 :: '-' :: m1 :: m2 :: '-' :: d1 :: d2 :: 'T' ::
      h1 :: h2 :: ':' :: n1 :: n2 :: ':' :: s1 :: s2 :: rest => do
    let a ← digitVal y1
    let b ← digitVal y2
    let c ← digitVal y3
    let d ← digitVal y4
    let mo ← twoDigits m1 m2
    let da ← twoDigits d1 d2
    let ho ← twoDigits h1 h2
    let mi ← twoDigits n1 n2
    let se ← twoDigits s1 s2
    let off ← parseOffsetChars rest
    if 1 ≤ mo ∧ mo ≤ 12 ∧ 1 ≤ da ∧ da ≤ 31 ∧ ho ≤ 23 ∧ mi ≤ 59 ∧ se ≤ 59 then
      some ⟨1000 * a + 100 * b + 10 * c + d, mo, da, ho, mi, se, off⟩
    else none
  | _ => none

def pad2 (n : Nat) : String :=
  if n < 10 then "0" ++ toString n else toString n

def pad4 (n : Nat) : String :=
  if n < 10 then "000" ++ toString n
  else if n < 100 then "00" ++ toString n
  else if n < 1000 then "0" ++ toString n
  else toString n

/-- How `datetime.isoformat` renders a fixed-offset timezone: always `±HH:MM`
(in particular UTC renders as `+00:00`, never as `Z`). -/
def renderOffset : Option Int → String
  | none => ""
  | some v =>
    if 0 ≤ v then "+" ++ pad2 (v.toNat / 60) ++ ":" ++ pad2 (v.toNat % 60)
    else "-" ++ pad2 ((-v).toNat / 60) ++ ":" ++ pad2 ((-v).toNat % 60)

/-- Python `datetime.isoformat()` for second-precision values. -/
def isoformat (dt : PyDateTime) : String :=
  pad4 dt.year ++ "-" ++ pad2 dt.month ++ "-" ++ pad2 dt.day ++ "T" ++
    pad2 dt.hour ++ ":" ++ pad2 dt.minute ++ ":" ++ pad2 dt.second ++
    renderOffset dt.offsetMinutes

/-- Days from 1970-01-01 of a civil date (standard days-from-civil
algorithm). -/
def daysFromCivil (y m d : Nat) : Int :=
  let y' := if m ≤ 2 then y - 1 else y
  let era := y' / 400
  let yoe := y' % 400
  let mp := (m + 9) % 12
  let doy := (153 * mp + 2) / 5 + d - 1
  let doe := yoe * 365 + yoe / 4 - yoe / 100 + doy
  ((era * 146097 + doe : Nat) : Int) - 719468

/-- The instant of an offset-aware `datetime`, as seconds since the Unix
epoch; this is the quantity Python's `datetime` comparison compares.  (For the
offset-naive case the code path raises before using it; the `getD 0` default
is never reached.) -/
def epochOf (dt : PyDateTime) : Int :=
  daysFromCivil dt.year dt.month dt.day * 86400 +
    (dt.hour * 3600 + dt.minute * 60 + dt.second : Nat) -
    60 * dt.offsetMinutes.getD 0

/-! ### Errors and the backend oracle -/

instance {ε α : Type} [DecidableEq ε] [DecidableEq α] : DecidableEq (Except ε α) :=
  fun a b =>
    match a, b with
    | .error x, .error y =>
      if h : x = y then .isTrue (by rw [h]) else .isFalse (by simp [h])
    | .ok x, .ok y =>
      if h : x = y then .isTrue (by rw [h]) else .isFalse (by simp [h])
    | .error _, .ok _ => .isFalse (by simp)
    | .ok _, .error _ => .isFalse (by simp)

/-- Python exceptions raised by the module.  `valueError` is the spec's
`InvalidArgument`; `httpError` (from `raise_for_status`) is the spec's
`BackendRequestError`; `typeError` arises e.g. from comparing an offset-naive
with an offset-aware `datetime`. -/
inductive PyError
  | valueError (msg : String)
  | httpError (path : String)
  | typeError (msg : String)
deriving DecidableEq

/-- The fields of a backend course object that `get_upcoming_assignments`
reads (`c.get("id")`, `c.get("name")`); `none` models an absent key / JSON
null. -/
structure Course where
  id : Option Int
  name : Option String
deriving DecidableEq

/-- The fields of a backend assignment object that the listing reads.
`points_possible` is numeric JSON data the code merely copies; it is carried
as an integer. -/
structure CanvasAssignment where
  due_at : Option String
  name : Option String
  points_possible : Option Int
  submission_types : List String
  html_url : Option String
  id : Option Int
deriving DecidableEq

/-- The six fields of the user's submission object that
`get_submission_status` projects into its result dict (the backend object has
more; only these are read).  `score` is numeric JSON data the code merely
copies. -/
structure CanvasSubmission where
  late : Option Bool
  missing : Option Bool
  submitted_at : Option String
  graded_at : Option String
  workflow_state : Option String
  score : Option Int
deriving DecidableEq

/-- The outcome the backend supplies for every request the tools can issue.
`none` models a request that raises (non-2xx status or transport failure);
`some` carries the parsed JSON of a success.  `H` is the SHA-1 hex digest
function used by `_hash_block`, kept abstract.  `nowEpoch` is
`datetime.now(timezone.utc)` in epoch seconds; `daysAheadDefault` is the
`DAYS_AHEAD_DEFAULT` configuration value. -/
structure CanvasEnv where
  nowEpoch : Int
  daysAheadDefault : Int
  coursesResult : Option (List Course)
  assignmentsResult : Int → Option (List CanvasAssignment)
  submissionResult : Option CanvasSubmission
  userIdResult : Option Int
  postResult : Option Int
  H : String → String

/-! ### `get_upcoming_assignments` -/

/-- One element of the returned `{"assignments": [...]}` array. -/
structure AssignmentItem where
  course_name : String
  name : Option String
  due_at : String
  points_possible : Option Int
  submission_types : List String
  html_url : Option String
  summary_line : String
  course_id : Int
  assignment_id : Option Int
deriving DecidableEq

/-- How a Python f-string renders an optional string (None prints as
`"None"`). -/
def pyStr : Option String → String
  | none => "None"
  | some s => s

def assignmentsPath (cid : Int) : String :=
  "/api/v1/courses/" ++ toString cid ++ "/assignments"

/-- The item dict appended for a surviving assignment. -/
def mkItem (cname : String) (cid : Int) (a : CanvasAssignment) (due : PyDateTime) :
    AssignmentItem where
  course_name := cname
  name := a.name
  due_at := isoformat due
  points_possible := a.points_possible
  submission_types := a.submission_types
  html_url := a.html_url
  summary_line :=
    "**" ++ cname ++ "** — " ++ pyStr a.name ++ " — Due: " ++ isoformat due
  course_id := cid
  assignment_id := a.id

/-- The inner loop over one course's assignments: skip falsy (`None`/empty)
and unparseable `due_at` values; raise `TypeError` when a parsed offset-naive
due is compared against the offset-aware horizon; keep items with
`due <= horizon`. -/
def collectItems (cname : String) (cid : Int) (horizon : Int) :
    List CanvasAssignment → Except PyError (List AssignmentItem)
  | [] => .ok []
  | a :: rest =>
    match a.due_at with
    | none => collectItems cname cid horizon rest
    | some ds =>
      if ds = "" then collectItems cname cid horizon rest
      else
        match parseIsoDatetime ds with
        | none => collectItems cname cid horizon rest
        | some due =>
          match due.offsetMinutes with
          | none =>
            .error (.typeError "cannot compare offset-naive and offset-aware datetimes")
          | some _ => do
            let tail ← collectItems cname cid horizon rest
            if epochOf due ≤ horizon then pure (mkItem cname cid a due :: tail)
            else pure tail

/-- The course display name: `c.get("name") or f"Course {cid}"` (a `None` or
empty name falls back to the id-based label). -/
def cnameOf (c : Course) (cid : Int) : String :=
  match c.name with
  | none => "Course " ++ toString cid
  | some n => if n = "" then "Course " ++ toString cid else n

/-- The outer loop over courses: skip falsy course ids (`None` or `0`),
fetch the course's assignments (raising `BackendRequestError` on failure) and
collect its items under the course display name. -/
def collectCourses (env : CanvasEnv) (horizon : Int) :
    List Course → Except PyError (List AssignmentItem)
  | [] => .ok []
  | c :: rest =>
    match c.id with
    | none => collectCourses env horizon rest
    | some cid =>
      if cid = 0 then collectCourses env horizon rest
      else
        match env.assignmentsResult cid with
        | none => .error (.httpError (assignmentsPath cid))
        | some items => do
          let here ← collectItems (cnameOf c cid) cid horizon items
          let tail ← collectCourses env horizon rest
          pure (here ++ tail)

/-- The sort relation of `out.sort(key=lambda x: x.get("due_at") or "")`:
ascending Python string comparison on the rendered `due_at` (always
non-empty here, so the `or ""` is the identity). -/
def itemLe (a b : AssignmentItem) : Prop :=
  strLe a.due_at b.due_at

instance : DecidableRel itemLe :=
  fun a b => inferInstanceAs (Decidable (strLe a.due_at b.due_at))

/-- Python `get_upcoming_assignments(days_ahead)`; the returned JSON string
`{"assignments": [...]}` is modelled as the list of item dicts.  Python's
stable ascending `list.sort` is computed by `List.insertionSort itemLe`,
which agrees with it elementwise (both place items in ascending key order,
ties kept in input order). -/
def get_upcoming_assignments (env : CanvasEnv) (days_ahead : Int) :
    Except PyError (List AssignmentItem) :=
  let horizon := env.nowEpoch + days_ahead * 86400
  match env.coursesResult with
  | none => .error (.httpError "/api/v1/courses")
  | some courses => do
    let out ← collectCourses env horizon courses
    pure (List.insertionSort itemLe out)

/-! ### `get_submission_status` -/

def submissionPath (course_id assignment_id : Int) : String :=
  "/api/v1/courses/" ++ toString course_id ++ "/assignments/" ++
    toString assignment_id ++ "/submissions/self"

/-- Python `get_submission_status(course_id, assignment_id)`: one GET; the status
dict holds exactly the six projected fields. -/
def get_submission_status (env : CanvasEnv) (course_id assignment_id : Int) :
    Except PyError CanvasSubmission :=
  match env.submissionResult with
  | none => .error (.httpError (submissionPath course_id assignment_id))
  | some sub => .ok sub

/-! ### `create_canvas_event` -/

/-- The body of the one backend write
(`POST /api/v1/calendar_events`, key `calendar_event`). -/
structure CalendarEventPayload where
  context_code : String
  title : String
  start_at : String
  end_at : String
  description : String
  location_name : String
deriving DecidableEq

/-- One network call issued to the backend, with its outcome (`ok = false`
models a call whose `raise_for_status` raised). -/
inductive NetCall
  | get (path : String) (ok : Bool)
  | post (payload : CalendarEventPayload) (ok : Bool)
deriving DecidableEq

/-- One element of the `created` array in the returned JSON. -/
structure CreatedRec where
  id : Int
  title : String
  start_at : String
  end_at : String
deriving DecidableEq

/-- The returned JSON object of `create_canvas_event`.  The `skipped` key is
present (and `true`) only on the duplicate-suppression path; `none` models its
absence. -/
structure CreateOutput where
  created : List CreatedRec
  count : Nat
  skipped : Option Bool
deriving DecidableEq

/-- Python `create_canvas_event(title, start_at, end_at)` against backend outcomes
`userIdResult` (the `GET /api/v1/users/self` of `_get_user_id`) and
`postResult` (the calendar-event write), starting from store file `file`.
Argument values are `Option String` so that a Python `None` argument is
representable; `none` and `""` are both falsy.  Returns the result, the store
file afterwards, and the network calls issued in order. -/
def create_canvas_event (H : String → String) (userIdResult postResult : Option Int)
    (title start_at end_at : Option String) (file : StoreFile) :
    Except PyError CreateOutput × StoreFile × List NetCall :=
  match title, start_at, end_at with
  | some t, some s0, some e0 =>
    if t = "" ∨ s0 = "" ∨ e0 = "" then
      (.error (.valueError "title, start_at, and end_at are required"), file, [])
    else
      let s1 := normIso s0
      let e1 := normIso e0
      match userIdResult with
      | none =>
        (.error (.httpError "/api/v1/users/self"), file,
          [.get "/api/v1/users/self" false])
      | some uid =>
        let context_code := "user_" ++ toString uid
        let seen := _load_seen file
        let h := _hash_block H t s1 e1
        if h ∈ seen then
          (.ok ⟨[], 0, some true⟩, file, [.get "/api/v1/users/self" true])
        else
          let payload : CalendarEventPayload := ⟨context_code, t, s1, e1, "", "Study"⟩
          match postResult with
          | none =>
            (.error (.httpError "/api/v1/calendar_events"), file,
              [.get "/api/v1/users/self" true, .post payload false])
          | some rid =>
            (.ok ⟨[⟨rid, t, s1, e1⟩], 1, none⟩, _save_seen (setAdd h seen),
              [.get "/api/v1/users/self" true, .post payload true])
  | _, _, _ =>
    (.error (.valueError "title, start_at, and end_at are required"), file, [])

/-- One invocation of `create_canvas_event` in a sequence: its arguments and
the backend outcomes it meets. -/
structure CreateCall where
  title : Option String
  start_at : Option String
  end_at : Option String
  userIdResult : Option Int
  postResult : Option Int

/-- Run a sequence of `create_canvas_event` invocations against one shared
store file, collecting every network call issued. -/
def runCreates (H : String → String) : List CreateCall → StoreFile → StoreFile × List NetCall
  | [], file => (file, [])
  | cc :: rest, file =>
    let r := create_canvas_event H cc.userIdResult cc.postResult
      cc.title cc.start_at cc.end_at file
    let r' := runCreates H rest r.2.1
    (r'.1, r.2.2 ++ r'.2)

/-- Whether a network call is a successful backend write creating an event
with the given (title, start_at, end_at) payload triple. -/
def isCreateOf (t s e : String) : NetCall → Bool
  | .post p ok =>
    ok && decide (p.title = t ∧ p.start_at = s ∧ p.end_at = e)
  | _ => false

/-- The number of successful backend writes for a fixed event triple in a
call trace. -/
def countCreated (t s e : String) (calls : List NetCall) : Nat :=
  calls.countP (isCreateOf t s e)

/-! ### The tool dispatcher (`execute_function`) -/

/-- The argument mapping of a model-issued tool call.  Keys the call does not
provide are `none`.  (A `create_canvas_event` argument that is absent is
passed on as a Python `None`; both fail the same falsy-argument check.) -/
structure ToolArgs where
  days_ahead : Option Int := none
  course_id : Option Int := none
  assignment_id : Option Int := none
  title : Option String := none
  start_at : Option String := none
  end_at : Option String := none

/-- The parsed form of the JSON string a dispatch returns. -/
inductive ToolResult
  | assignments (items : List AssignmentItem)
  | submission (s : CanvasSubmission)
  | createRes (o : CreateOutput)
  | errorPayload (msg : String)
deriving DecidableEq

/-- Python `execute_function(name, args)`: dispatch on the tool name, passing the
argument mapping as keyword arguments; unknown names return the
`{"error": f"Unknown tool {name}"}` payload.  There is no `try/except`
around the tool calls: any exception a tool raises propagates (`.error`). -/
def execute_function (env : CanvasEnv) (name : String) (args : ToolArgs)
    (file : StoreFile) : Except PyError ToolResult × StoreFile :=
  if name = "get_upcoming_assignments" then
    ((get_upcoming_assignments env (args.days_ahead.getD env.daysAheadDefault)).map
      .assignments, file)
  else if name = "get_submission_status" then
    match args.course_id, args.assignment_id with
    | some cid, some aid => ((get_submission_status env cid aid).map .submission, file)
    | _, _ => (.error (.typeError "missing required argument"), file)
  else if name = "create_canvas_event" then
    let r := create_canvas_event env.H env.userIdResult env.postResult
      args.title args.start_at args.end_at file
    (r.1.map .createRes, r.2.1)
  else
    (.ok (.errorPayload ("Unknown tool " ++ name)), file)

/-! ### Helper lemmas -/

/-! ### Claims C4, C5, C6, C7, C8, C9 -/

/-! ### Claim C2 (dispatcher) -/

/-- A concrete environment used by witnesses and counterexamples. -/
def envTest : CanvasEnv where
  nowEpoch := epochOf ⟨2025, 1, 8, 0, 0, 0, some 0⟩
  daysAheadDefault := 7
  coursesResult := some []
  assignmentsResult := fun _ => some []
  submissionResult := none
  userIdResult := some 1
  postResult := some 1
  H := id

/-! ### Claim C10 (offset-naive due timestamps) -/

/-- A backend environment whose single course has one assignment with a
parseable offset-naive due timestamp. -/
def envC10 : CanvasEnv :=
  { envTest with
    coursesResult := some [⟨some 1, some "Math"⟩],
    assignmentsResult := fun _ =>
      some [⟨some "2025-01-09T00:00:00", some "HW 1", some 10, ["online_upload"],
        some "https://canvas.test/hw1", some 3⟩] }

/-! ### Claim C3 (listing filter and sort) -/

/-- The per-assignment selection the listing performs, as one function: keep
an assignment iff its `due_at` is non-falsy, parseable, and its instant is at
most the horizon; project it to its item dict. -/
def keepAssignment (horizon : Int) (cname : String) (cid : Int)
    (a : CanvasAssignment) : Option AssignmentItem :=
  match a.due_at with
  | none => none
  | some ds =>
    if ds = "" then none
    else
      match parseIsoDatetime ds with
      | none => none
      | some due =>
        if epochOf due ≤ horizon then some (mkItem cname cid a due) else none

/-- The multiset of items the listing's loops select, written with standard
list combinators: every non-falsy-id course contributes the kept assignments
of its backend response. -/
def specSelected (env : CanvasEnv) (horizon : Int) (courses : List Course) :
    List AssignmentItem :=
  courses.flatMap fun c =>
    match c.id with
    | none => []
    | some cid =>
      if cid = 0 then []
      else ((env.assignmentsResult cid).getD []).filterMap
        (keepAssignment horizon (cnameOf c cid) cid)

/-- Decidable check: an assignment's `due_at`, when present, non-empty and
parseable, carries a UTC offset. -/
def dueOkB (a : CanvasAssignment) : Bool :=
  match a.due_at with
  | none => true
  | some ds =>
    ds == "" ||
    match parseIsoDatetime ds with
    | none => true
    | some due => due.offsetMinutes.isSome

/-- Decidable check: a course with a truthy id has a successful assignments
response all of whose parseable due timestamps are offset-aware. -/
def courseOkB (env : CanvasEnv) (c : Course) : Bool :=
  match c.id with
  | none => true
  | some cid =>
    cid == 0 ||
    ((env.assignmentsResult cid).isSome &&
      ((env.assignmentsResult cid).getD []).all dueOkB)

/-- The due instant an item's rendered `due_at` denotes (0 for the unreachable
unparseable case); used to state what "sorted by due timestamp" would mean. -/
def dueEpochKey (x : AssignmentItem) : Int :=
  match parseIsoDatetime x.due_at with
  | some d => epochOf d
  | none => 0

/-- A backend response with one course and six assignments: one due a day
before now, one due five days ahead expressed with a `+09:00` offset, one due
four-and-a-half days ahead in UTC, one due 40 days ahead, one with a null due
and one with an unparseable due.  `envTest.nowEpoch` is 2025-01-08T00:00:00Z. -/
def envC3 : CanvasEnv :=
  { envTest with
    coursesResult := some [⟨some 1, some "Math"⟩],
    assignmentsResult := fun _ => some [
      ⟨some "2025-01-07T00:00:00Z", some "HW past", some 10, [], some "u1", some 11⟩,
      ⟨some "2025-01-13T01:00:00+09:00", some "HW tokyo", some 10, [], some "u2",
        some 12⟩,
      ⟨some "2025-01-12T20:00:00+00:00", some "HW utc", some 10, [], some "u3",
        some 13⟩,
      ⟨some "2025-02-17T00:00:00Z", some "HW far", some 10, [], some "u4", some 14⟩,
      ⟨none, some "HW nodue", some 10, [], some "u5", some 15⟩,
      ⟨some "not-a-date", some "HW bad", some 10, [], some "u6", some 16⟩] }

/-! ### Claim C1 (at-most-once creation) -/

/-! ### Proofs -/

theorem lexLe_total (a b : List Char) : lexLe a b = true ∨ lexLe b a = true := by
  induction a generalizing b with
  | nil => left; rfl
  | cons x xs ih =>
    cases b with
    | nil => right; rfl
    | cons y ys =>
      by_cases hxy : x.toNat < y.toNat
      · left; simp [lexLe, hxy]
      · by_cases hyx : y.toNat < x.toNat
        · right; simp [lexLe, hyx]
        · rcases ih ys with h | h
          · left; simp [lexLe, hxy, hyx, h]
          · right; simp [lexLe, hxy, hyx, h]

theorem lexLe_trans {a b c : List Char} (hab : lexLe a b = true)
    (hbc : lexLe b c = true) : lexLe a c = true := by
  induction a generalizing b c with
  | nil => rfl
  | cons x xs ih =>
    cases b with
    | nil => simp [lexLe] at hab
    | cons y ys =>
      cases c with
      | nil => simp [lexLe] at hbc
      | cons z zs =>
        simp only [lexLe] at hab hbc ⊢
        by_cases h1 : x.toNat < y.toNat
        · by_cases h2 : y.toNat < z.toNat
          · have h3 : x.toNat < z.toNat := h1.trans h2
            simp [h3]
          · by_cases h2' : z.toNat < y.toNat
            · simp [h2, h2'] at hbc
            · have h3 : x.toNat < z.toNat := by omega
              simp [h3]
        · by_cases h1' : y.toNat < x.toNat
          · simp [h1, h1'] at hab
          · simp only [h1, h1', if_false] at hab
            by_cases h2 : y.toNat < z.toNat
            · have h3 : x.toNat < z.toNat := by omega
              simp [h3]
            · by_cases h2' : z.toNat < y.toNat
              · simp [h2, h2'] at hbc
              · simp only [h2, h2', if_false] at hbc
                have h3 : ¬ x.toNat < z.toNat := by omega
                have h4 : ¬ z.toNat < x.toNat := by omega
                simp only [h3, h4, if_false]
                exact ih hab hbc

theorem strDataInj {s t : String} (h : s.data = t.data) : s = t := by
  cases s; cases t; cases h; rfl

theorem charToNatInj {a b : Char} (h : a.toNat = b.toNat) : a = b := by
  have ha := Char.ofNat_toNat a
  rw [h, Char.ofNat_toNat b] at ha
  exact ha.symm

theorem lexLe_antisymm {a b : List Char} (hab : lexLe a b = true)
    (hba : lexLe b a = true) : a = b := by
  induction a generalizing b with
  | nil =>
    cases b with
    | nil => rfl
    | cons y ys => simp [lexLe] at hba
  | cons x xs ih =>
    cases b with
    | nil => simp [lexLe] at hab
    | cons y ys =>
      simp only [lexLe] at hab hba
      by_cases h1 : x.toNat < y.toNat
      · simp [h1] at hba
        omega
      · by_cases h2 : y.toNat < x.toNat
        · simp [h1, h2] at hab
        · have hx : x = y := charToNatInj (by omega)
          simp only [h1, h2, if_false] at hab hba
          rw [hx, ih hab hba]

/-- Membership in the store after a save is membership in the saved set. -/
theorem mem_load_save (x : String) (l : List String) :
    x ∈ _load_seen (_save_seen l) ↔ x ∈ l := by
  simp only [_load_seen, _save_seen, List.mem_dedup]
  exact (List.perm_insertionSort strLe l).mem_iff

theorem mem_setAdd (x h : String) (l : List String) :
    x ∈ setAdd h l ↔ x = h ∨ x ∈ l := by
  simp only [setAdd]
  split <;> rename_i hmem
  · constructor
    · exact fun hx => Or.inr hx
    · rintro (rfl | hx)
      · exact hmem
      · exact hx
  · simp [List.mem_cons]

/-- Replacement `s.replace("+00:00", "Z")` leaves a string without an occurrence of
`+00:00` unchanged. -/
theorem replaceP00Z_of_not_has (l : List Char) (h : hasP00 l = false) :
    replaceP00Z l = l := by
  induction l using replaceP00Z.induct with
  | case1 rest ih => simp [hasP00] at h
  | case2 c rest hne ih =>
    rw [replaceP00Z.eq_2 c rest hne, ih]
    rw [hasP00.eq_2 c rest hne] at h
    exact h
  | case3 => rfl

/-- Replacement `s.replace("+00:00", "Z")` on a string of the form `x + "+00:00"` where
`x` contains no `'+'` yields `x + "Z"`. -/
theorem replaceP00Z_append_pat (x : List Char) (h : '+' ∉ x) :
    replaceP00Z (x ++ "+00:00".data) = x ++ "Z".data := by
  induction x with
  | nil => rfl
  | cons c rest ih =>
    have hc : c ≠ '+' := fun hcp => h (hcp ▸ List.mem_cons_self c rest)
    have hrest : '+' ∉ rest := fun hx => h (List.mem_cons_of_mem c hx)
    have hne : ∀ (rest1 : List Char), c = '+' →
        rest ++ "+00:00".data = '0' :: '0' :: ':' :: '0' :: '0' :: rest1 → False :=
      fun _ hcp _ => hc hcp
    rw [List.cons_append, replaceP00Z.eq_2 c (rest ++ "+00:00".data) hne, ih hrest,
      List.cons_append]

/-- The character-level shape of the pre-hash encoding. -/
theorem hashInput_data (t s e : String) :
    (hashInput t s e).data = t.data ++ '|' :: (s.data ++ '|' :: e.data) := by
  simp [hashInput, String.data_append]

theorem hashInput_inj_title {t t' s e : String} (h : hashInput t s e = hashInput t' s e) :
    t = t' := by
  have hd := congrArg String.data h
  rw [hashInput_data, hashInput_data] at hd
  exact strDataInj (List.append_cancel_right hd)

theorem hashInput_inj_start {t s s' e : String} (h : hashInput t s e = hashInput t s' e) :
    s = s' := by
  have hd := congrArg String.data h
  rw [hashInput_data, hashInput_data] at hd
  have h1 : s.data ++ '|' :: e.data = s'.data ++ '|' :: e.data :=
    List.cons_injective.eq_iff.mp (List.append_cancel_left hd)
  exact strDataInj (List.append_cancel_right h1)

theorem hashInput_inj_end {t s e e' : String} (h : hashInput t s e = hashInput t s e') :
    e = e' := by
  have hd := congrArg String.data h
  rw [hashInput_data, hashInput_data] at hd
  have h1 : s.data ++ '|' :: e.data = s.data ++ '|' :: e'.data :=
    List.cons_injective.eq_iff.mp (List.append_cancel_left hd)
  exact strDataInj (List.cons_injective.eq_iff.mp (List.append_cancel_left h1))

/-- A falsy (`None` or empty) argument makes `create_canvas_event` raise
`ValueError` before touching the store or the network. -/
theorem create_falsy (H : String → String) (userIdResult postResult : Option Int)
    (title start_at end_at : Option String) (file : StoreFile)
    (h : title = none ∨ title = some "" ∨ start_at = none ∨ start_at = some "" ∨
      end_at = none ∨ end_at = some "") :
    create_canvas_event H userIdResult postResult title start_at end_at file =
      (.error (.valueError "title, start_at, and end_at are required"), file, []) := by
  rcases title with _ | t <;> rcases start_at with _ | s <;> rcases end_at with _ | e <;>
    simp only [create_canvas_event] <;> try rfl
  have hf : t = "" ∨ s = "" ∨ e = "" := by
    rcases h with h | h | h | h | h | h <;> simp_all
  rw [if_pos hf]

/-- C5: if any of title, start_at, end_at passed to `create_canvas_event` is
empty or absent, the call fails with the `InvalidArgument` (`ValueError`)
error before any backend call is made: the result is the error, the store is
untouched, and the network-call trace is empty. -/
theorem C5_invalid_argument_rejected_before_network (H : String → String)
    (userIdResult postResult : Option Int) (title start_at end_at : Option String)
    (file : StoreFile)
    (h : title = none ∨ title = some "" ∨ start_at = none ∨ start_at = some "" ∨
      end_at = none ∨ end_at = some "") :
    create_canvas_event H userIdResult postResult title start_at end_at file =
      (.error (.valueError "title, start_at, and end_at are required"), file, []) :=
  create_falsy H userIdResult postResult title start_at end_at file h

/-- Witness for C5 at the spec's concrete example. -/
theorem C5_witness :
    create_canvas_event id (some 1) (some 1) (some "") (some "2025-01-01T00:00:00Z")
      (some "2025-01-01T01:00:00Z") .absent =
      (.error (.valueError "title, start_at, and end_at are required"), .absent, []) :=
  C5_invalid_argument_rejected_before_network id (some 1) (some 1) (some "")
    (some "2025-01-01T00:00:00Z") (some "2025-01-01T01:00:00Z") .absent
    (Or.inr (Or.inl rfl))

/-- C9: `_load_seen` never raises: it returns the empty set when the store
file is absent or unreadable/invalid JSON, and the file's entries (as a set)
otherwise; consequently, after the store file is corrupted, an
already-created triple is created on the backend again (the retry issues
exactly one successful write). -/
theorem C9_load_seen_never_raises_and_resets :
    (_load_seen .absent = [] ∧ _load_seen .corrupt = [] ∧
      ∀ l, _load_seen (.content l) = l.dedup) ∧
    ∀ (H : String → String) (uid rid : Int) (t s e : String),
      t ≠ "" → s ≠ "" → e ≠ "" →
      countCreated t (normIso s) (normIso e)
        (create_canvas_event H (some uid) (some rid) (some t) (some s) (some e)
          .corrupt).2.2 = 1 := by
  refine ⟨⟨rfl, rfl, fun l => rfl⟩, ?_⟩
  intro H uid rid t s e ht hs he
  simp only [create_canvas_event]
  rw [if_neg (by simp [ht, hs, he])]
  simp [countCreated, List.countP_cons, isCreateOf, _load_seen]

/-- Witness for C9. -/
theorem C9_witness :
    countCreated "Study block" (normIso "2025-01-01T10:00:00+00:00")
      (normIso "2025-01-01T11:00:00+00:00")
      (create_canvas_event id (some 5) (some 42) (some "Study block")
        (some "2025-01-01T10:00:00+00:00") (some "2025-01-01T11:00:00+00:00")
        .corrupt).2.2 = 1 :=
  C9_load_seen_never_raises_and_resets.2 id 5 42 "Study block"
    "2025-01-01T10:00:00+00:00" "2025-01-01T11:00:00+00:00"
    (by decide) (by decide) (by decide)

/-- C8: if the backend write inside `create_canvas_event` fails (`postResult =
none`), the idempotency store is left exactly as it was — the fingerprint is
added and persisted only after a successful write — and a retry against a
working backend (for a fingerprint not yet recorded) issues the write. -/
theorem C8_failed_write_leaves_store_unchanged (H : String → String)
    (uid : Option Int) (title start_at end_at : Option String) (file : StoreFile) :
    (create_canvas_event H uid none title start_at end_at file).2.1 = file ∧
    ∀ (uid2 rid : Int) (t s e : String),
      title = some t → start_at = some s → end_at = some e →
      t ≠ "" → s ≠ "" → e ≠ "" →
      _hash_block H t (normIso s) (normIso e) ∉ _load_seen file →
      countCreated t (normIso s) (normIso e)
        (create_canvas_event H (some uid2) (some rid) title start_at end_at
          file).2.2 = 1 := by
  constructor
  · rcases title with _ | t <;> rcases start_at with _ | s <;> rcases end_at with _ | e <;>
      simp only [create_canvas_event] <;> try rfl
    repeat' split
    all_goals rfl
  · intro uid2 rid t s e hts hss hes ht hs he hmem
    subst hts; subst hss; subst hes
    simp only [create_canvas_event]
    rw [if_neg (by simp [ht, hs, he])]
    simp [hmem, countCreated, List.countP_cons, isCreateOf]

/-- Witness for C8. -/
theorem C8_witness :
    (create_canvas_event id (some 5) none (some "Study block")
      (some "2025-01-01T10:00:00Z") (some "2025-01-01T11:00:00Z") .absent).2.1 =
      .absent ∧
    countCreated "Study block" (normIso "2025-01-01T10:00:00Z")
      (normIso "2025-01-01T11:00:00Z")
      (create_canvas_event id (some 5) (some 42) (some "Study block")
        (some "2025-01-01T10:00:00Z") (some "2025-01-01T11:00:00Z")
        .absent).2.2 = 1 :=
  ⟨(C8_failed_write_leaves_store_unchanged id (some 5) (some "Study block")
      (some "2025-01-01T10:00:00Z") (some "2025-01-01T11:00:00Z") .absent).1,
    (C8_failed_write_leaves_store_unchanged id (some 5) (some "Study block")
      (some "2025-01-01T10:00:00Z") (some "2025-01-01T11:00:00Z") .absent).2
      5 42 "Study block" "2025-01-01T10:00:00Z" "2025-01-01T11:00:00Z"
      rfl rfl rfl (by decide) (by decide) (by decide) (by decide)⟩

/-- C7: persisting a set of fingerprints with `_save_seen` and reloading with
`_load_seen` yields the same set; the saved file is independent of insertion
order; and the persisted file always holds a sorted array of strings whose
set of entries is the saved set. -/
theorem C7_store_round_trip_sorted :
    (∀ seen : List String, (_load_seen (_save_seen seen)).toFinset = seen.toFinset) ∧
    (∀ l1 l2 : List String, l1.Perm l2 → _save_seen l1 = _save_seen l2) ∧
    (∀ seen : List String, ∃ entries, _save_seen seen = .content entries ∧
      List.Sorted strLe entries ∧ entries.toFinset = seen.toFinset) := by
  haveI : IsTotal String strLe := ⟨fun a b => lexLe_total a.data b.data⟩
  haveI : IsTrans String strLe := ⟨fun _ _ _ hab hbc => lexLe_trans hab hbc⟩
  haveI : IsAntisymm String strLe :=
    ⟨fun _ _ hab hba => strDataInj (lexLe_antisymm hab hba)⟩
  refine ⟨?_, ?_, ?_⟩
  · intro seen
    exact List.toFinset.ext fun x => mem_load_save x seen
  · intro l1 l2 h
    have hp : (List.insertionSort strLe l1).Perm (List.insertionSort strLe l2) :=
      ((List.perm_insertionSort strLe l1).trans h).trans
        (List.perm_insertionSort strLe l2).symm
    exact congrArg StoreFile.content
      (List.eq_of_perm_of_sorted hp (List.sorted_insertionSort strLe l1)
        (List.sorted_insertionSort strLe l2))
  · intro seen
    exact ⟨List.insertionSort strLe seen, rfl, List.sorted_insertionSort strLe seen,
      List.toFinset_eq_of_perm _ _ (List.perm_insertionSort strLe seen)⟩

/-- Witness for C7. -/
theorem C7_witness : _save_seen ["b", "a"] = _save_seen ["a", "b"] :=
  C7_store_round_trip_sorted.2.1 ["b", "a"] ["a", "b"] (by decide)

/-- C6: `create_canvas_event` normalizes `start_at`/`end_at` by rewriting the
offset `+00:00` to the `Z` suffix, leaves strings without an occurrence of
`+00:00` (in particular, ones carrying any other offset) unchanged, and uses
the same normalized strings for the fingerprint, the backend write payload,
and the returned JSON. -/
theorem C6_normalization_consistent :
    (∀ s : String, hasP00 s.data = false → normIso s = s) ∧
    (∀ x : String, '+' ∉ x.data → normIso (x ++ "+00:00") = x ++ "Z") ∧
    (∀ (H : String → String) (uid rid : Int) (t s e : String) (file : StoreFile),
      t ≠ "" → s ≠ "" → e ≠ "" →
      _hash_block H t (normIso s) (normIso e) ∉ _load_seen file →
      create_canvas_event H (some uid) (some rid) (some t) (some s) (some e) file =
        (.ok ⟨[⟨rid, t, normIso s, normIso e⟩], 1, none⟩,
          _save_seen (setAdd (_hash_block H t (normIso s) (normIso e))
            (_load_seen file)),
          [.get "/api/v1/users/self" true,
            .post ⟨"user_" ++ toString uid, t, normIso s, normIso e, "", "Study"⟩
              true])) := by
  refine ⟨?_, ?_, ?_⟩
  · intro s h
    exact strDataInj (replaceP00Z_of_not_has s.data h)
  · intro x h
    apply strDataInj
    show replaceP00Z (x ++ "+00:00").data = (x ++ "Z").data
    rw [String.data_append, String.data_append]
    exact replaceP00Z_append_pat x.data h
  · intro H uid rid t s e file ht hs he hmem
    simp only [create_canvas_event]
    rw [if_neg (by simp [ht, hs, he])]
    simp [hmem]

/-- Witness for C6. -/
theorem C6_witness :
    normIso "2025-01-01T00:00:00-07:00" = "2025-01-01T00:00:00-07:00" ∧
    normIso ("2025-01-01T00:00:00" ++ "+00:00") = "2025-01-01T00:00:00" ++ "Z" ∧
    create_canvas_event id (some 5) (some 42) (some "Study block")
      (some "2025-01-01T10:00:00+00:00") (some "2025-01-01T11:00:00+00:00")
      .absent =
      (.ok ⟨[⟨42, "Study block", normIso "2025-01-01T10:00:00+00:00",
          normIso "2025-01-01T11:00:00+00:00"⟩], 1, none⟩,
        _save_seen (setAdd (_hash_block id "Study block"
          (normIso "2025-01-01T10:00:00+00:00")
          (normIso "2025-01-01T11:00:00+00:00")) (_load_seen .absent)),
        [.get "/api/v1/users/self" true,
          .post ⟨"user_" ++ toString (5 : Int), "Study block",
            normIso "2025-01-01T10:00:00+00:00",
            normIso "2025-01-01T11:00:00+00:00", "", "Study"⟩ true]) :=
  ⟨C6_normalization_consistent.1 "2025-01-01T00:00:00-07:00" (by decide),
    C6_normalization_consistent.2.1 "2025-01-01T00:00:00" (by decide),
    C6_normalization_consistent.2.2 id 5 42 "Study block"
      "2025-01-01T10:00:00+00:00" "2025-01-01T11:00:00+00:00" .absent
      (by decide) (by decide) (by decide) (by decide)⟩

/-- C4 counterexample: two requests that are distinct triples (differing in
both title and start) share one pre-hash encoding, hence one fingerprint for
every digest function; the claim's parenthetical "the pre-hash encoding of
distinct triples is distinct" is false because `|` may occur inside a field. -/
theorem C4_counterexample :
    hashInput "a|b" "c" "d" = hashInput "a" "b|c" "d" ∧
    _hash_block id "a|b" "c" "d" = _hash_block id "a" "b|c" "d" ∧
    (("a|b", "c", "d") : String × String × String) ≠ ("a", "b|c", "d") := by
  refine ⟨by decide, by decide, by decide⟩

/-- C4 (amended): identical triples always fingerprint identically, and
changing exactly one of title/start/end (the other two held fixed) changes
the pre-hash encoding — hence the fingerprint, modulo hash collisions. -/
theorem C4_fingerprint_determinism_single_field :
    (∀ (H : String → String) (t s e t2 s2 e2 : String),
      t = t2 → s = s2 → e = e2 → _hash_block H t s e = _hash_block H t2 s2 e2) ∧
    (∀ t t2 s e : String, t ≠ t2 → hashInput t s e ≠ hashInput t2 s e) ∧
    (∀ t s s2 e : String, s ≠ s2 → hashInput t s e ≠ hashInput t s2 e) ∧
    (∀ t s e e2 : String, e ≠ e2 → hashInput t s e ≠ hashInput t s e2) :=
  ⟨fun _ _ _ _ _ _ _ h1 h2 h3 => by rw [h1, h2, h3],
    fun _ _ _ _ hne h => hne (hashInput_inj_title h),
    fun _ _ _ _ hne h => hne (hashInput_inj_start h),
    fun _ _ _ _ hne h => hne (hashInput_inj_end h)⟩

/-- Witness for C4. -/
theorem C4_witness :
    _hash_block id "t" "s" "e" = _hash_block id "t" "s" "e" ∧
    hashInput "a" "s" "e" ≠ hashInput "b" "s" "e" ∧
    hashInput "t" "a" "e" ≠ hashInput "t" "b" "e" ∧
    hashInput "t" "s" "a" ≠ hashInput "t" "s" "b" :=
  ⟨C4_fingerprint_determinism_single_field.1 id "t" "s" "e" "t" "s" "e" rfl rfl rfl,
    C4_fingerprint_determinism_single_field.2.1 "a" "b" "s" "e" (by decide),
    C4_fingerprint_determinism_single_field.2.2.1 "t" "a" "b" "e" (by decide),
    C4_fingerprint_determinism_single_field.2.2.2 "t" "s" "a" "b" (by decide)⟩

/-- C2 counterexample: a domain failure is not caught by the dispatcher.
Dispatching `create_canvas_event` with an empty title makes
`execute_function` raise (`ValueError` propagates) instead of returning a
serialized error payload. -/
theorem C2_counterexample :
    execute_function envTest "create_canvas_event"
      { title := some "", start_at := some "2025-01-01T00:00:00Z",
        end_at := some "2025-01-01T01:00:00Z" } .absent =
      (.error (.valueError "title, start_at, and end_at are required"), .absent) := by
  decide

/-- C2 (amended): unrecognized tool names yield the
`{"error": "Unknown tool <name>"}` payload without raising, but domain
failures are not caught internally: an `InvalidArgument` (`ValueError`) from
`create_canvas_event` propagates out of `execute_function` as an exception. -/
theorem C2_unknown_tool_payload_but_domain_error_propagates :
    (∀ (env : CanvasEnv) (name : String) (args : ToolArgs) (file : StoreFile),
      name ≠ "get_upcoming_assignments" → name ≠ "get_submission_status" →
      name ≠ "create_canvas_event" →
      execute_function env name args file =
        (.ok (.errorPayload ("Unknown tool " ++ name)), file)) ∧
    (∀ (env : CanvasEnv) (file : StoreFile) (t s e : String),
      t = "" ∨ s = "" ∨ e = "" →
      execute_function env "create_canvas_event"
        { title := some t, start_at := some s, end_at := some e } file =
        (.error (.valueError "title, start_at, and end_at are required"), file)) := by
  constructor
  · intro env name args file h1 h2 h3
    simp only [execute_function]
    rw [if_neg h1, if_neg h2, if_neg h3]
  · intro env file t s e h
    have hf : (some t : Option String) = none ∨ (some t : Option String) = some "" ∨
        (some s : Option String) = none ∨ (some s : Option String) = some "" ∨
        (some e : Option String) = none ∨ (some e : Option String) = some "" := by
      rcases h with h | h | h
      · exact Or.inr (Or.inl (by rw [h]))
      · exact Or.inr (Or.inr (Or.inr (Or.inl (by rw [h]))))
      · exact Or.inr (Or.inr (Or.inr (Or.inr (Or.inr (by rw [h])))))
    have hc := create_falsy env.H env.userIdResult env.postResult
      (some t) (some s) (some e) file hf
    simp only [execute_function]
    rw [if_neg (by decide), if_neg (by decide), if_pos trivial]
    simp only [hc]
    rfl

/-- Witness for C2. -/
theorem C2_witness :
    execute_function envTest "delete_everything" {} .absent =
      (.ok (.errorPayload ("Unknown tool " ++ "delete_everything")), .absent) ∧
    execute_function envTest "create_canvas_event"
      { title := some "Study block", start_at := some "",
        end_at := some "2025-01-01T01:00:00Z" } .absent =
      (.error (.valueError "title, start_at, and end_at are required"), .absent) :=
  ⟨C2_unknown_tool_payload_but_domain_error_propagates.1 envTest "delete_everything"
      {} .absent (by decide) (by decide) (by decide),
    C2_unknown_tool_payload_but_domain_error_propagates.2 envTest .absent
      "Study block" "" "2025-01-01T01:00:00Z" (Or.inr (Or.inl rfl))⟩

/-- If one assignment in a course's list has a parseable but offset-naive
`due_at`, the inner collection loop raises instead of skipping the item. -/
theorem collectItems_error_of_naive (cname : String) (cid : Int) (horizon : Int)
    (items : List CanvasAssignment) (a : CanvasAssignment) (ds : String)
    (due : PyDateTime) (ha : a ∈ items) (hds : a.due_at = some ds) (hne : ds ≠ "")
    (hp : parseIsoDatetime ds = some due) (hnaive : due.offsetMinutes = none) :
    ∃ err, collectItems cname cid horizon items = .error err := by
  induction items with
  | nil => cases ha
  | cons x rest ih =>
    simp only [collectItems]
    rcases List.mem_cons.mp ha with rfl | hmem
    · split
      · rename_i heq
        rw [hds] at heq
        cases heq
      · rename_i ds2 heq
        rw [hds] at heq
        injection heq with h2
        subst h2
        rw [if_neg hne]
        split
        · rename_i heq2
          rw [hp] at heq2
          cases heq2
        · rename_i due2 heq2
          rw [hp] at heq2
          injection heq2 with h3
          subst h3
          split
          · exact ⟨_, rfl⟩
          · rename_i off heq3
            rw [hnaive] at heq3
            cases heq3
    · obtain ⟨err, herr⟩ := ih hmem
      split
      · exact ⟨err, herr⟩
      · rename_i ds2 heq
        by_cases hempty : ds2 = ""
        · rw [if_pos hempty]
          exact ⟨err, herr⟩
        · rw [if_neg hempty]
          split
          · exact ⟨err, herr⟩
          · rename_i due2 heq2
            split
            · exact ⟨_, rfl⟩
            · rename_i off heq3
              exact ⟨err, by rw [herr]; rfl⟩

/-- C10: a backend response containing an assignment whose `due_at` parses to
an offset-naive date-time makes `get_upcoming_assignments` raise (the
comparison with the offset-aware horizon fails with `TypeError`) instead of
excluding that item: the entire listing fails. -/
theorem C10_naive_due_raises (env : CanvasEnv) (days_ahead : Int) (c : Course)
    (cid : Int) (items : List CanvasAssignment) (a : CanvasAssignment) (ds : String)
    (due : PyDateTime) (hcr : env.coursesResult = some [c]) (hc : c.id = some cid)
    (h0 : cid ≠ 0) (hi : env.assignmentsResult cid = some items) (ha : a ∈ items)
    (hds : a.due_at = some ds) (hne : ds ≠ "") (hp : parseIsoDatetime ds = some due)
    (hnaive : due.offsetMinutes = none) :
    ∃ err, get_upcoming_assignments env days_ahead = .error err := by
  simp only [get_upcoming_assignments]
  rw [hcr]
  simp only [collectCourses]
  split
  · rename_i heq
    rw [hc] at heq
    cases heq
  · rename_i cid2 heq
    rw [hc] at heq
    injection heq with h2
    subst h2
    rw [if_neg h0]
    split
    · rename_i heq2
      rw [hi] at heq2
      cases heq2
    · rename_i items2 heq2
      rw [hi] at heq2
      injection heq2 with h3
      subst h3
      obtain ⟨err, herr⟩ := collectItems_error_of_naive (cnameOf c cid)
        cid (env.nowEpoch + days_ahead * 86400) items a ds due ha hds hne hp hnaive
      rw [herr]
      exact ⟨err, rfl⟩

/-- Witness for C10. -/
theorem C10_witness : ∃ err, get_upcoming_assignments envC10 7 = .error err :=
  C10_naive_due_raises envC10 7 ⟨some 1, some "Math"⟩ 1
    [⟨some "2025-01-09T00:00:00", some "HW 1", some 10, ["online_upload"],
      some "https://canvas.test/hw1", some 3⟩]
    ⟨some "2025-01-09T00:00:00", some "HW 1", some 10, ["online_upload"],
      some "https://canvas.test/hw1", some 3⟩
    "2025-01-09T00:00:00" ⟨2025, 1, 9, 0, 0, 0, none⟩
    rfl rfl (by decide) rfl (by decide) rfl (by decide) (by decide) rfl

/-- Extract from the decidable check: assignment fetches succeed. -/
theorem hokOfAll (env : CanvasEnv) (courses : List Course)
    (h : courses.all (courseOkB env) = true) :
    ∀ c ∈ courses, ∀ cid : Int, c.id = some cid → cid ≠ 0 →
      (env.assignmentsResult cid).isSome = true := by
  intro c hc cid hcid h0
  have hcok := List.all_eq_true.mp h c hc
  obtain ⟨cidf, cnamef⟩ := c
  have hcid2 : cidf = some cid := hcid
  subst hcid2
  simp only [courseOkB] at hcok
  rw [Bool.or_eq_true] at hcok
  rcases hcok with h1 | h2
  · exact absurd (by simpa using h1) h0
  · have h2s : (env.assignmentsResult cid).isSome = true ∧
        ((env.assignmentsResult cid).getD []).all dueOkB = true := by
      simpa using h2
    exact h2s.1

/-- Extract from the decidable check: every parseable due timestamp in a
reachable response is offset-aware. -/
theorem hawareOfAll (env : CanvasEnv) (courses : List Course)
    (h : courses.all (courseOkB env) = true) :
    ∀ c ∈ courses, ∀ cid : Int, c.id = some cid → cid ≠ 0 →
      ∀ a ∈ (env.assignmentsResult cid).getD [], ∀ ds : String,
        a.due_at = some ds → ds ≠ "" →
        ∀ due, parseIsoDatetime ds = some due → due.offsetMinutes.isSome = true := by
  intro c hc cid hcid h0 a ha ds hds hne due hp
  have hcok := List.all_eq_true.mp h c hc
  obtain ⟨cidf, cnamef⟩ := c
  have hcid2 : cidf = some cid := hcid
  subst hcid2
  simp only [courseOkB] at hcok
  rw [Bool.or_eq_true] at hcok
  rcases hcok with h1 | h2
  · exact absurd (by simpa using h1) h0
  · have h2s : (env.assignmentsResult cid).isSome = true ∧
        ((env.assignmentsResult cid).getD []).all dueOkB = true := by
      simpa using h2
    have hall := h2s.2
    have hda := List.all_eq_true.mp hall a ha
    obtain ⟨aduef, anf, apf, asf, auf, aidf⟩ := a
    have hds2 : aduef = some ds := hds
    subst hds2
    simp only [dueOkB] at hda
    rw [Bool.or_eq_true] at hda
    rcases hda with h3 | h4
    · exact absurd (by simpa using h3) hne
    · rw [hp] at h4
      exact h4

/-- The inner loop equals the claim's per-assignment filter when every
parseable due timestamp in the list is offset-aware. -/
theorem collectItems_eq_filterMap (cname : String) (cid : Int) (horizon : Int)
    (items : List CanvasAssignment)
    (hw : ∀ a ∈ items, ∀ ds : String, a.due_at = some ds → ds ≠ "" →
      ∀ due, parseIsoDatetime ds = some due → due.offsetMinutes.isSome = true) :
    collectItems cname cid horizon items =
      .ok (items.filterMap (keepAssignment horizon cname cid)) := by
  induction items with
  | nil => rfl
  | cons x rest ih =>
    have hxw := hw x (List.mem_cons_self x rest)
    have ihr := ih fun a hm ds hds hne due hp =>
      hw a (List.mem_cons_of_mem x hm) ds hds hne due hp
    simp only [collectItems]
    split
    · rename_i heq
      rw [List.filterMap_cons]
      have hk : keepAssignment horizon cname cid x = none := by
        simp [keepAssignment, heq]
      rw [hk, ihr]
    · rename_i ds heq
      by_cases hempty : ds = ""
      · rw [if_pos hempty, List.filterMap_cons]
        have hk : keepAssignment horizon cname cid x = none := by
          simp [keepAssignment, heq, hempty]
        rw [hk, ihr]
      · rw [if_neg hempty]
        split
        · rename_i heq2
          rw [List.filterMap_cons]
          have hk : keepAssignment horizon cname cid x = none := by
            simp [keepAssignment, heq, hempty, heq2]
          rw [hk, ihr]
        · rename_i due heq2
          split
          · rename_i heq3
            have hs := hxw ds heq hempty due heq2
            rw [heq3] at hs
            exact absurd hs (by decide)
          · rename_i off heq3
            have hk : keepAssignment horizon cname cid x =
                if epochOf due ≤ horizon then some (mkItem cname cid x due)
                else none := by
              simp [keepAssignment, heq, hempty, heq2]
            rw [List.filterMap_cons, hk]
            by_cases hd : epochOf due ≤ horizon
            · simp only [if_pos hd, ihr]
              rfl
            · simp only [if_neg hd, ihr]
              rfl

/-- The outer loop equals the claim's selection when every reachable fetch
succeeds and every parseable due timestamp is offset-aware. -/
theorem collectCourses_eq_specSelected (env : CanvasEnv) (horizon : Int)
    (courses : List Course)
    (hok : ∀ c ∈ courses, ∀ cid : Int, c.id = some cid → cid ≠ 0 →
      (env.assignmentsResult cid).isSome = true)
    (hw : ∀ c ∈ courses, ∀ cid : Int, c.id = some cid → cid ≠ 0 →
      ∀ a ∈ (env.assignmentsResult cid).getD [], ∀ ds : String,
        a.due_at = some ds → ds ≠ "" →
        ∀ due, parseIsoDatetime ds = some due → due.offsetMinutes.isSome = true) :
    collectCourses env horizon courses = .ok (specSelected env horizon courses) := by
  induction courses with
  | nil => rfl
  | cons c rest ih =>
    have ihr := ih
      (fun c' hm cid hcid h0 => hok c' (List.mem_cons_of_mem c hm) cid hcid h0)
      (fun c' hm cid hcid h0 => hw c' (List.mem_cons_of_mem c hm) cid hcid h0)
    simp only [collectCourses]
    split
    · rename_i heq
      rw [ihr]
      have hs : specSelected env horizon (c :: rest) = specSelected env horizon rest := by
        simp [specSelected, List.flatMap_cons, heq]
      rw [hs]
    · rename_i cid heq
      by_cases h0 : cid = 0
      · rw [if_pos h0, ihr]
        have hs : specSelected env horizon (c :: rest) =
            specSelected env horizon rest := by
          simp [specSelected, List.flatMap_cons, heq, h0]
        rw [hs]
      · rw [if_neg h0]
        split
        · rename_i heq2
          have hs := hok c (List.mem_cons_self c rest) cid heq h0
          rw [heq2] at hs
          exact absurd hs (by decide)
        · rename_i items heq2
          have hcw : ∀ a ∈ items, ∀ ds : String, a.due_at = some ds → ds ≠ "" →
              ∀ due, parseIsoDatetime ds = some due →
                due.offsetMinutes.isSome = true := by
            have hthis := hw c (List.mem_cons_self c rest) cid heq h0
            rw [heq2] at hthis
            exact hthis
          rw [collectItems_eq_filterMap (cnameOf c cid) cid horizon items hcw, ihr]
          have hs : specSelected env horizon (c :: rest) =
              items.filterMap (keepAssignment horizon (cnameOf c cid) cid) ++
                specSelected env horizon rest := by
            simp [specSelected, List.flatMap_cons, heq, h0, heq2]
          rw [hs]
          rfl

/-- C3 (amended): for every backend response whose reachable assignment
fetches succeed and whose parseable due timestamps are offset-aware,
`get_upcoming_assignments` returns exactly (as a multiset) the assignments
with a non-falsy, parseable `due_at` whose instant is at most the horizon —
past-due items included — and the returned list is sorted ascending by the
rendered `due_at` string. -/
theorem C3_listing_filter_exact_and_string_sorted (env : CanvasEnv)
    (days_ahead : Int) (courses : List Course)
    (hc : env.coursesResult = some courses)
    (hall : courses.all (courseOkB env) = true) :
    ∃ l, get_upcoming_assignments env days_ahead = .ok l ∧
      l.Perm (specSelected env (env.nowEpoch + days_ahead * 86400) courses) ∧
      List.Sorted itemLe l := by
  haveI : IsTotal AssignmentItem itemLe :=
    ⟨fun a b => lexLe_total a.due_at.data b.due_at.data⟩
  haveI : IsTrans AssignmentItem itemLe :=
    ⟨fun _ _ _ hab hbc => lexLe_trans hab hbc⟩
  have heq := collectCourses_eq_specSelected env (env.nowEpoch + days_ahead * 86400)
    courses (hokOfAll env courses hall) (hawareOfAll env courses hall)
  refine ⟨List.insertionSort itemLe
    (specSelected env (env.nowEpoch + days_ahead * 86400) courses), ?_, ?_, ?_⟩
  · simp only [get_upcoming_assignments]
    split
    · rename_i h2
      rw [hc] at h2
      cases h2
    · rename_i cs h2
      rw [hc] at h2
      injection h2 with h3
      subst h3
      rw [heq]
      rfl
  · exact List.perm_insertionSort itemLe _
  · exact List.sorted_insertionSort itemLe _

/-- C3 counterexample: with now = 2025-01-08T00:00:00Z and a 7-day horizon,
the listing returns the T-1day item as well (the claim's example says only
the T+5days item appears), and the returned list is not sorted ascending by
due instant (the `+09:00` item sorts after the UTC item by string but denotes
an earlier instant). -/
theorem C3_counterexample :
    (get_upcoming_assignments envC3 7).map (List.map AssignmentItem.due_at) =
      .ok ["2025-01-07T00:00:00+00:00", "2025-01-12T20:00:00+00:00",
        "2025-01-13T01:00:00+09:00"] ∧
    ¬ List.Sorted (fun a b => dueEpochKey a ≤ dueEpochKey b)
      ((get_upcoming_assignments envC3 7).toOption.getD []) := by
  constructor
  · decide
  · decide

/-- Witness for C3. -/
theorem C3_witness :
    ∃ l, get_upcoming_assignments envC3 7 = .ok l ∧
      l.Perm (specSelected envC3 (envC3.nowEpoch + 7 * 86400) [⟨some 1, some "Math"⟩]) ∧
      List.Sorted itemLe l :=
  C3_listing_filter_exact_and_string_sorted envC3 7 [⟨some 1, some "Math"⟩] rfl
    (by decide)

theorem countCreated_append (t s e : String) (l1 l2 : List NetCall) :
    countCreated t s e (l1 ++ l2) = countCreated t s e l1 + countCreated t s e l2 :=
  List.countP_append _ _ _

/-- One `create_canvas_event` invocation either issues no successful write for
the triple (t, s, e) and only grows the stored set, or issues exactly one,
in which case the triple's fingerprint was not in the store before and is in
it afterwards. -/
theorem create_step_cases (H : String → String) (uid post : Option Int)
    (title start_at end_at : Option String) (file : StoreFile) (t s e : String) :
    (countCreated t s e
        (create_canvas_event H uid post title start_at end_at file).2.2 = 0 ∧
      ∀ x, x ∈ _load_seen file →
        x ∈ _load_seen (create_canvas_event H uid post title start_at end_at
          file).2.1) ∨
    (countCreated t s e
        (create_canvas_event H uid post title start_at end_at file).2.2 = 1 ∧
      H (hashInput t s e) ∉ _load_seen file ∧
      ∀ x, x ∈ _load_seen (create_canvas_event H uid post title start_at end_at
          file).2.1 ↔
        (x = H (hashInput t s e) ∨ x ∈ _load_seen file)) := by
  rcases title with _ | t0 <;> rcases start_at with _ | s0 <;> rcases end_at with _ | e0 <;>
    try (left; exact ⟨rfl, fun x hx => hx⟩)
  simp only [create_canvas_event]
  by_cases hfal : t0 = "" ∨ s0 = "" ∨ e0 = ""
  · rw [if_pos hfal]
    left
    exact ⟨rfl, fun x hx => hx⟩
  · rw [if_neg hfal]
    split
    · left
      exact ⟨rfl, fun x hx => hx⟩
    · rename_i u heq
      by_cases hmem : _hash_block H t0 (normIso s0) (normIso e0) ∈ _load_seen file
      · rw [if_pos hmem]
        left
        exact ⟨rfl, fun x hx => hx⟩
      · rw [if_neg hmem]
        split
        · left
          refine ⟨?_, fun x hx => hx⟩
          simp [countCreated, List.countP_cons, isCreateOf]
        · rename_i rid heq2
          by_cases htr : t0 = t ∧ normIso s0 = s ∧ normIso e0 = e
          · right
            obtain ⟨ht1, ht2, ht3⟩ := htr
            have hkey : _hash_block H t0 (normIso s0) (normIso e0) =
                H (hashInput t s e) := by
              rw [_hash_block, ht1, ht2, ht3]
            refine ⟨?_, ?_, ?_⟩
            · simp [countCreated, List.countP_cons, isCreateOf, ht1, ht2, ht3]
            · rw [← hkey]
              exact hmem
            · intro x
              rw [mem_load_save, mem_setAdd, hkey]
          · left
            refine ⟨?_, ?_⟩
            · simp only [countCreated, List.countP_cons, List.countP_nil,
                isCreateOf, Bool.true_and]
              simp only [decide_eq_true_eq]
              rw [if_neg htr]
              rfl
            · intro x hx
              rw [mem_load_save, mem_setAdd]
              exact Or.inr hx

/-- Sequenced invocations against one shared store issue at most one
successful write for a fixed payload triple — none once its fingerprint is
stored. -/
theorem runCreates_count_le (H : String → String) (t s e : String)
    (invs : List CreateCall) :
    ∀ file : StoreFile,
      countCreated t s e (runCreates H invs file).2 ≤
        (if H (hashInput t s e) ∈ _load_seen file then 0 else 1) := by
  induction invs with
  | nil =>
    intro file
    simp only [runCreates, countCreated, List.countP_nil]
    split <;> omega
  | cons inv rest ih =>
    intro file
    obtain ⟨ti, st, en, ur, pr⟩ := inv
    have hstep := create_step_cases H ur pr ti st en file t s e
    simp only [runCreates, countCreated_append]
    rcases hstep with ⟨hc0, hmono⟩ | ⟨hc1, hnot, hiff⟩
    · have hrest := ih (create_canvas_event H ur pr ti st en file).2.1
      rw [hc0, Nat.zero_add]
      by_cases hm : H (hashInput t s e) ∈ _load_seen file
      · rw [if_pos hm]
        rw [if_pos (hmono _ hm)] at hrest
        exact hrest
      · rw [if_neg hm]
        rcases le_or_lt (countCreated t s e
            (runCreates H rest (create_canvas_event H ur pr ti st en file).2.1).2) 1 with
          h | h
        · exact h
        · exfalso
          have : countCreated t s e
              (runCreates H rest (create_canvas_event H ur pr ti st en file).2.1).2 ≤
              (if H (hashInput t s e) ∈
                _load_seen (create_canvas_event H ur pr ti st en file).2.1
                then 0 else 1) := hrest
          split at this <;> omega
    · have hrest := ih (create_canvas_event H ur pr ti st en file).2.1
      have hmem2 : H (hashInput t s e) ∈
          _load_seen (create_canvas_event H ur pr ti st en file).2.1 :=
        (hiff _).mpr (Or.inl rfl)
      rw [if_pos hmem2] at hrest
      rw [hc1, if_neg hnot]
      omega

/-- With the triple's fingerprint already stored, `create_canvas_event`
(with a working user-id fetch) takes the duplicate-suppression path: skip
output, store unchanged, no write. -/
theorem create_skip (H : String → String) (uid : Int) (rid : Option Int)
    (t s e : String) (file : StoreFile) (ht : t ≠ "") (hs : s ≠ "") (he : e ≠ "")
    (hmem : _hash_block H t (normIso s) (normIso e) ∈ _load_seen file) :
    create_canvas_event H (some uid) rid (some t) (some s) (some e) file =
      (.ok ⟨[], 0, some true⟩, file, [.get "/api/v1/users/self" true]) := by
  simp only [create_canvas_event]
  rw [if_neg (by simp [ht, hs, he]), if_pos hmem]

/-- A non-raising `create_canvas_event` call leaves the triple's fingerprint
in the store it returns. -/
theorem create_ok_mem (H : String → String) (uid : Int) (rid : Option Int)
    (t s e : String) (file : StoreFile) (ht : t ≠ "") (hs : s ≠ "") (he : e ≠ "")
    (hok : (create_canvas_event H (some uid) rid (some t) (some s) (some e)
      file).1.isOk = true) :
    _hash_block H t (normIso s) (normIso e) ∈
      _load_seen (create_canvas_event H (some uid) rid (some t) (some s) (some e)
        file).2.1 := by
  simp only [create_canvas_event] at hok ⊢
  rw [if_neg (by simp [ht, hs, he])] at hok ⊢
  by_cases hmem : _hash_block H t (normIso s) (normIso e) ∈ _load_seen file
  · rw [if_pos hmem] at hok ⊢
    exact hmem
  · rw [if_neg hmem] at hok ⊢
    rcases rid with _ | rid2
    · simp [Except.isOk, Except.toBool] at hok
    · exact (mem_load_save _ _).mpr ((mem_setAdd _ _ _).mpr (Or.inl rfl))

/-- C1: across any sequence of `create_canvas_event` invocations sharing one
idempotency store (starting from its initial absent state), at most one
successful backend write is ever issued for any fixed payload (title,
start_at, end_at) triple; and after a non-raising call for a triple, a second
call with the same triple (whose user-id fetch succeeds) makes no backend
write and returns `{"created": [], "count": 0, "skipped": true}`. -/
theorem C1_at_most_one_backend_write :
    (∀ (H : String → String) (invs : List CreateCall) (t s e : String),
      countCreated t s e (runCreates H invs .absent).2 ≤ 1) ∧
    (∀ (H : String → String) (t s e : String) (uid1 : Int) (rid1 : Option Int)
      (uid2 : Int) (rid2 : Option Int) (file : StoreFile),
      t ≠ "" → s ≠ "" → e ≠ "" →
      ((create_canvas_event H (some uid1) rid1 (some t) (some s) (some e)
        file).1).isOk = true →
      create_canvas_event H (some uid2) rid2 (some t) (some s) (some e)
        (create_canvas_event H (some uid1) rid1 (some t) (some s) (some e)
          file).2.1 =
        (.ok ⟨[], 0, some true⟩,
          (create_canvas_event H (some uid1) rid1 (some t) (some s) (some e)
            file).2.1,
          [.get "/api/v1/users/self" true])) := by
  constructor
  · intro H invs t s e
    have h := runCreates_count_le H t s e invs .absent
    rw [if_neg (by simp [_load_seen])] at h
    exact h
  · intro H t s e uid1 rid1 uid2 rid2 file ht hs he hok
    exact create_skip H uid2 rid2 t s e _ ht hs he
      (create_ok_mem H uid1 rid1 t s e file ht hs he hok)

/-- Witness for C1: two invocations of the same triple against one store; the
count of successful writes is at most one, and the second call is the skip. -/
theorem C1_witness :
    countCreated "Study block" "2025-01-01T10:00:00Z" "2025-01-01T11:00:00Z"
      (runCreates id
        [⟨some "Study block", some "2025-01-01T10:00:00Z",
          some "2025-01-01T11:00:00Z", some 1, some 41⟩,
         ⟨some "Study block", some "2025-01-01T10:00:00Z",
          some "2025-01-01T11:00:00Z", some 1, some 42⟩] .absent).2 ≤ 1 ∧
    create_canvas_event id (some 2) (some 43) (some "Study block")
      (some "2025-01-01T10:00:00Z") (some "2025-01-01T11:00:00Z")
      (create_canvas_event id (some 1) (some 41) (some "Study block")
        (some "2025-01-01T10:00:00Z") (some "2025-01-01T11:00:00Z")
        .absent).2.1 =
      (.ok ⟨[], 0, some true⟩,
        (create_canvas_event id (some 1) (some 41) (some "Study block")
          (some "2025-01-01T10:00:00Z") (some "2025-01-01T11:00:00Z")
          .absent).2.1,
        [.get "/api/v1/users/self" true]) :=
  ⟨C1_at_most_one_backend_write.1 id
      [⟨some "Study block", some "2025-01-01T10:00:00Z",
        some "2025-01-01T11:00:00Z", some 1, some 41⟩,
       ⟨some "Study block", some "2025-01-01T10:00:00Z",
        some "2025-01-01T11:00:00Z", some 1, some 42⟩]
      "Study block" "2025-01-01T10:00:00Z" "2025-01-01T11:00:00Z",
    C1_at_most_one_backend_write.2 id "Study block" "2025-01-01T10:00:00Z"
      "2025-01-01T11:00:00Z" 1 (some 41) 2 (some 43) .absent
      (by decide) (by decide) (by decide) (by decide)⟩
